import Mathlib

/-!
Shallow embedding of `src/include/timer.h` (bws/timer): a fixed-slot
interval-timing library over a monotonic clock.

Modelling conventions:
* `struct timespec` becomes `Timespec` with integer fields.
* C `double` arithmetic is idealized as exact rational arithmetic (`ℚ`).
* The global arrays `timer_begins_by_idx`, `timer_ends_by_idx`,
  `timer_current_by_idx`, `timer_names` and the counter `timer_name_cur`
  become fields of a `TimerState` record threaded through the operations.
  Sample storage is modelled as total maps `ℕ → ℕ → Timespec` so that the
  source's unchecked writes past the allocated region remain expressible;
  `calloc`'s zero-initialization makes the initial map constantly zero.
* `clock_gettime(CLOCK_MONOTONIC, ...)` is nondeterministic; operations
  that read the clock take the reading as an explicit argument, and
  `timer_init` takes a stream `clock : ℕ → Timespec` of successive
  readings (three reads per calibration iteration, as in the source).
* The `capacity` field records the `iterations` argument of `timer_init`
  (the allocated length of every slot's storage); the C code does not
  store it, and no operation reads it.
-/

/-- `#define NUM_TIMERS 6`. -/
def NUM_TIMERS : ℕ := 6

/-- `#define MAX_NAME_SIZE 16`. -/
def MAX_NAME_SIZE : ℕ := 16

/-- `struct timespec`: seconds and nanoseconds components. -/
structure Timespec where
  tv_sec : ℤ
  tv_nsec : ℤ
deriving DecidableEq, Repr

/-- The zero reading, as left by `calloc`. -/
def Timespec.zero : Timespec := ⟨0, 0⟩

/-- `timespec_to_double`: `seconds + nanos / 1000000000`, with the
division idealized as exact rational division. -/
def timespec_to_double (t : Timespec) : ℚ :=
  (t.tv_sec : ℚ) + (t.tv_nsec : ℚ) / 1000000000

/-- `strncpy`-style truncation into a zeroed buffer: keep at most `n`
characters of `s`. -/
def truncateName (s : String) (n : ℕ) : String := String.mk (s.data.take n)

/-- The global mutable state of the library: the five file-scope
statics of `timer.h`, plus the ghost `capacity`. -/
structure TimerState where
  begins : ℕ → ℕ → Timespec
  ends : ℕ → ℕ → Timespec
  current : ℕ → ℕ
  names : ℕ → String
  name_cur : ℕ
  capacity : ℕ

/-- `timer_set_name`: stores `name`, truncated by
`strncpy(dst, name, MAX_NAME_SIZE - 1)` into a zeroed buffer, at index
`timer_name_cur`, and returns the old cursor while incrementing it.
No exhaustion check is performed by the source. -/
def timer_set_name (name : String) (s : TimerState) : TimerState × ℕ :=
  ({ s with
      names := fun i => if i = s.name_cur then truncateName name (MAX_NAME_SIZE - 1) else s.names i,
      name_cur := s.name_cur + 1 },
   s.name_cur)

/-- `timer_begin`: records the clock reading `t` into
`timer_begins_by_idx[tidx] + timer_current_by_idx[tidx]` and returns
`clock_gettime`'s status (0 on success). No bounds check is performed. -/
def timer_begin (tidx : ℕ) (t : Timespec) (s : TimerState) : TimerState × ℤ :=
  ({ s with
      begins := fun i k => if i = tidx ∧ k = s.current tidx then t else s.begins i k },
   0)

/-- `timer_end`: records the clock reading `t` into
`timer_ends_by_idx[tidx] + timer_current_by_idx[tidx]`, then increments
`timer_current_by_idx[tidx]` and returns 0. No bounds check is performed. -/
def timer_end (tidx : ℕ) (t : Timespec) (s : TimerState) : TimerState × ℤ :=
  ({ s with
      ends := fun i k => if i = tidx ∧ k = s.current tidx then t else s.ends i k,
      current := fun i => if i = tidx then s.current tidx + 1 else s.current i },
   0)

/-- One iteration of `timer_init`'s calibration loop: `timer_begin(clk)`,
a discarded `clock_gettime` into the local `t`, then `timer_end(clk)`.
Iteration `i` consumes the clock readings at indices `3*i`, `3*i+1`
(discarded) and `3*i+2`. -/
def calibrationStep (clk : ℕ) (clock : ℕ → Timespec) (s : TimerState) (i : ℕ) : TimerState :=
  (timer_end clk (clock (3 * i + 2)) (timer_begin clk (clock (3 * i)) s).1).1

/-- The state right after `timer_init`'s first loop: every slot's
storage `calloc`ed to zero, `recorded_count` 0, and name set by
`snprintf(name, MAX_NAME_SIZE - 1, "%d", i)` to the decimal string of
its index (truncated to `MAX_NAME_SIZE - 2` characters). `timer_name_cur`
carries its static initializer 0. -/
def initLoopState (iterations : ℕ) : TimerState :=
  { begins := fun _ _ => Timespec.zero,
    ends := fun _ _ => Timespec.zero,
    current := fun _ => 0,
    names := fun i => truncateName (toString i) (MAX_NAME_SIZE - 2),
    name_cur := 0,
    capacity := iterations }

/-- `timer_init`: zero all slots and give them numeric names, register
slot 0 as `"CLCK"` via `timer_set_name`, then run `iterations`
calibration begin/end cycles on that slot. Returns 0 unconditionally in
the source; the embedding returns the resulting state. -/
def timer_init (iterations : ℕ) (clock : ℕ → Timespec) : TimerState :=
  let s0 := initLoopState iterations
  let named := timer_set_name "CLCK" s0
  (List.range iterations).foldl (calibrationStep named.2 clock) named.1

/-- The duration of sample `k` of slot `tidx`:
`timespec_to_double(ends[k]) - timespec_to_double(begins[k])`. -/
def sampleDuration (s : TimerState) (tidx k : ℕ) : ℚ :=
  timespec_to_double (s.ends tidx k) - timespec_to_double (s.begins tidx k)

/-- `timer_get_total`: `total = 0.0`, then `total += end - begin` for
each `i` below `timer_current_by_idx[tidx]`. -/
def timer_get_total (s : TimerState) (tidx : ℕ) : ℚ :=
  (List.range (s.current tidx)).foldl (fun total i => total + sampleDuration s tidx i) 0

/-- `timer_get_avg`: `timer_get_total(tidx) / timer_current_by_idx[tidx]`.
(When the count is 0 the C code divides by zero; rational division by
zero yields 0 here, so the division itself is only meaningful when the
count is positive.) -/
def timer_get_avg (s : TimerState) (tidx : ℕ) : ℚ :=
  timer_get_total s tidx / (s.current tidx : ℚ)

/-- `timer_get_max`: seeded with `ends[0] - begins[0]` (read even when
nothing was recorded), then `max = (t > max ? t : max)` over all
recorded samples. -/
def timer_get_max (s : TimerState) (tidx : ℕ) : ℚ :=
  (List.range (s.current tidx)).foldl
    (fun m i => if sampleDuration s tidx i > m then sampleDuration s tidx i else m)
    (sampleDuration s tidx 0)

/-- `timer_get_min`: seeded with `ends[0] - begins[0]` (read even when
nothing was recorded), then `min = (t < min ? t : min)` over all
recorded samples. -/
def timer_get_min (s : TimerState) (tidx : ℕ) : ℚ :=
  (List.range (s.current tidx)).foldl
    (fun m i => if sampleDuration s tidx i < m then sampleDuration s tidx i else m)
    (sampleDuration s tidx 0)

/-- A reachable demonstration state: `timer_init 2` with a clock stream
reading `i` seconds at tick `i`, followed by one begin/end pair on
slot 1 measuring from 7s to 9.5s. -/
def demoState : TimerState :=
  (timer_end 1 ⟨9, 500000000⟩
    (timer_begin 1 ⟨7, 0⟩ (timer_init 2 (fun i => ⟨(i : ℤ), 0⟩))).1).1

/-- A state in which every fixed slot index has been assigned: after
`timer_init` (which consumes index 0 for `"CLCK"`), five further naming
calls consume indices 1 through 5, leaving `timer_name_cur` at
`NUM_TIMERS`. -/
def exhaustedState : TimerState :=
  (timer_set_name "E"
    (timer_set_name "D"
      (timer_set_name "C"
        (timer_set_name "B"
          (timer_set_name "A"
            (timer_init 1 (fun _ => Timespec.zero))).1).1).1).1).1

/-! ### Lemmas about the calibration fold -/

lemma calibrationStep_current (clk : ℕ) (clock : ℕ → Timespec) (s : TimerState) (i j : ℕ) :
    (calibrationStep clk clock s i).current j =
      if j = clk then s.current clk + 1 else s.current j := rfl

lemma calibrationStep_begins (clk : ℕ) (clock : ℕ → Timespec) (s : TimerState) (i j k : ℕ) :
    (calibrationStep clk clock s i).begins j k =
      if j = clk ∧ k = s.current clk then clock (3 * i) else s.begins j k := rfl

lemma calibrationStep_ends (clk : ℕ) (clock : ℕ → Timespec) (s : TimerState) (i j k : ℕ) :
    (calibrationStep clk clock s i).ends j k =
      if j = clk ∧ k = s.current clk then clock (3 * i + 2) else s.ends j k := rfl

lemma foldl_calibration_current (clk : ℕ) (clock : ℕ → Timespec) (n : ℕ) (s : TimerState) :
    ∀ j, ((List.range n).foldl (calibrationStep clk clock) s).current j =
      if j = clk then s.current clk + n else s.current j := by
  induction n with
  | zero =>
    intro j
    by_cases h : j = clk <;> simp [h]
  | succ n ih =>
    intro j
    rw [List.range_succ, List.foldl_append, List.foldl_cons, List.foldl_nil,
      calibrationStep_current, ih clk, ih j, if_pos rfl]
    by_cases h : j = clk <;> simp [h, Nat.add_assoc]

lemma foldl_calibration_preserved (clk : ℕ) (clock : ℕ → Timespec) (l : List ℕ)
    (s : TimerState) :
    ((l.foldl (calibrationStep clk clock) s).names = s.names ∧
      (l.foldl (calibrationStep clk clock) s).name_cur = s.name_cur) ∧
      (l.foldl (calibrationStep clk clock) s).capacity = s.capacity := by
  induction l generalizing s with
  | nil => exact ⟨⟨rfl, rfl⟩, rfl⟩
  | cons a l ih => exact ih (calibrationStep clk clock s a)

lemma foldl_calibration_other_slots (clk : ℕ) (clock : ℕ → Timespec) (l : List ℕ)
    (s : TimerState) (i k : ℕ) (h : i ≠ clk) :
    ((l.foldl (calibrationStep clk clock) s).begins i k = s.begins i k ∧
      (l.foldl (calibrationStep clk clock) s).ends i k = s.ends i k) := by
  induction l generalizing s with
  | nil => exact ⟨rfl, rfl⟩
  | cons a l ih =>
    constructor
    · rw [List.foldl_cons, (ih _).1, calibrationStep_begins, if_neg (by tauto)]
    · rw [List.foldl_cons, (ih _).2, calibrationStep_ends, if_neg (by tauto)]

lemma calibration_fills (clock : ℕ → Timespec) (s : TimerState) (hcur : s.current 0 = 0)
    (n : ℕ) :
    ∀ k < n,
      ((List.range n).foldl (calibrationStep 0 clock) s).begins 0 k = clock (3 * k) ∧
      ((List.range n).foldl (calibrationStep 0 clock) s).ends 0 k = clock (3 * k + 2) := by
  induction n with
  | zero => intro k hk; omega
  | succ n ih =>
    have hc : ((List.range n).foldl (calibrationStep 0 clock) s).current 0 = n := by
      rw [foldl_calibration_current 0 clock n s 0, if_pos rfl, hcur, Nat.zero_add]
    intro k hk
    rw [List.range_succ, List.foldl_append, List.foldl_cons, List.foldl_nil,
      calibrationStep_begins, calibrationStep_ends, hc]
    rcases Nat.lt_succ_iff_lt_or_eq.mp hk with hlt | heq
    · rw [if_neg (by omega), if_neg (by omega)]
      exact ih k hlt
    · subst heq
      rw [if_pos ⟨rfl, rfl⟩, if_pos ⟨rfl, rfl⟩]
      exact ⟨rfl, rfl⟩

/-! ### C1 -/

/-- C1: for every capacity `c > 0`, after `init(c)` the calibration
slot 0 has `recorded_count == c`, with `begins`/`ends` fully populated
by the `c` begin/end cycles around a monotonic clock read (iteration
`k` stores the readings taken before and after the discarded middle
read), every other slot has `recorded_count == 0`, slot 0 is named
`"CLCK"`, and every other slot is named the decimal string of its
index. -/
theorem timer_init_calibrates (c : ℕ) (clock : ℕ → Timespec) (hc : 0 < c) :
    (timer_init c clock).current 0 = c ∧
    (∀ k < c, (timer_init c clock).begins 0 k = clock (3 * k) ∧
      (timer_init c clock).ends 0 k = clock (3 * k + 2)) ∧
    (∀ s, s < NUM_TIMERS → s ≠ 0 → (timer_init c clock).current s = 0) ∧
    (timer_init c clock).names 0 = "CLCK" ∧
    (∀ s, s < NUM_TIMERS → s ≠ 0 → (timer_init c clock).names s = toString s) := by
  have hnames :
      (timer_init c clock).names = (timer_set_name "CLCK" (initLoopState c)).1.names :=
    (foldl_calibration_preserved 0 clock (List.range c) _).1.1
  refine ⟨?_, ?_, ?_, ?_, ?_⟩
  · rw [show (timer_init c clock).current 0 =
        ((List.range c).foldl (calibrationStep 0 clock)
          (timer_set_name "CLCK" (initLoopState c)).1).current 0 from rfl,
      foldl_calibration_current, if_pos rfl]
    exact Nat.zero_add c
  · exact calibration_fills clock _ rfl c
  · intro s hs hs0
    rw [show (timer_init c clock).current s =
        ((List.range c).foldl (calibrationStep 0 clock)
          (timer_set_name "CLCK" (initLoopState c)).1).current s from rfl,
      foldl_calibration_current, if_neg hs0]
    rfl
  · rw [hnames, show (timer_set_name "CLCK" (initLoopState c)).1.names 0 =
        truncateName "CLCK" (MAX_NAME_SIZE - 1) from rfl]
    decide
  · intro s hs hs0
    rw [hnames, show (timer_set_name "CLCK" (initLoopState c)).1.names s =
        (if s = 0 then truncateName "CLCK" (MAX_NAME_SIZE - 1)
          else truncateName (toString s) (MAX_NAME_SIZE - 2)) from rfl, if_neg hs0]
    have hs6 : s < 6 := hs
    interval_cases s <;> decide

/-! ### Lemmas about the statistics folds -/

lemma timer_get_total_eq_sum (s : TimerState) (tidx : ℕ) :
    timer_get_total s tidx =
      ∑ k ∈ Finset.range (s.current tidx), sampleDuration s tidx k := by
  rw [timer_get_total]
  generalize s.current tidx = n
  induction n with
  | zero => simp
  | succ n ih =>
    rw [List.range_succ, List.foldl_append, List.foldl_cons, List.foldl_nil,
      Finset.sum_range_succ, ih]

lemma foldl_min_le (f : ℕ → ℚ) (l : List ℕ) (a : ℚ) :
    l.foldl (fun m i => if f i < m then f i else m) a ≤ a := by
  induction l generalizing a with
  | nil => exact le_refl a
  | cons b l ih =>
    rw [List.foldl_cons]
    refine le_trans (ih _) ?_
    by_cases h : f b < a
    · rw [if_pos h]; exact le_of_lt h
    · rw [if_neg h]

lemma foldl_min_le_of_mem (f : ℕ → ℚ) (l : List ℕ) (a : ℚ) (i : ℕ) (hi : i ∈ l) :
    l.foldl (fun m i => if f i < m then f i else m) a ≤ f i := by
  induction l generalizing a with
  | nil => cases hi
  | cons b l ih =>
    rw [List.foldl_cons]
    rcases List.mem_cons.mp hi with heq | hmem
    · subst heq
      refine le_trans (foldl_min_le f l _) ?_
      by_cases h : f i < a
      · rw [if_pos h]
      · rw [if_neg h]; exact le_of_not_lt h
    · exact ih _ hmem

lemma le_foldl_max (f : ℕ → ℚ) (l : List ℕ) (a : ℚ) :
    a ≤ l.foldl (fun m i => if f i > m then f i else m) a := by
  induction l generalizing a with
  | nil => exact le_refl a
  | cons b l ih =>
    rw [List.foldl_cons]
    refine le_trans ?_ (ih _)
    by_cases h : f b > a
    · rw [if_pos h]; exact le_of_lt h
    · rw [if_neg h]

lemma le_foldl_max_of_mem (f : ℕ → ℚ) (l : List ℕ) (a : ℚ) (i : ℕ) (hi : i ∈ l) :
    f i ≤ l.foldl (fun m i => if f i > m then f i else m) a := by
  induction l generalizing a with
  | nil => cases hi
  | cons b l ih =>
    rw [List.foldl_cons]
    rcases List.mem_cons.mp hi with heq | hmem
    · subst heq
      refine le_trans ?_ (le_foldl_max f l _)
      by_cases h : f i > a
      · rw [if_pos h]
      · rw [if_neg h]; exact le_of_not_lt h
    · exact ih _ hmem

/-- Witness for C1 at capacity 2 and the zero clock. -/
theorem timer_init_calibrates_witness :
    0 < 2 ∧
    ((timer_init 2 (fun _ => Timespec.zero)).current 0 = 2 ∧
    (∀ k < 2, (timer_init 2 (fun _ => Timespec.zero)).begins 0 k =
        (fun _ => Timespec.zero) (3 * k) ∧
      (timer_init 2 (fun _ => Timespec.zero)).ends 0 k =
        (fun _ => Timespec.zero) (3 * k + 2)) ∧
    (∀ s, s < NUM_TIMERS → s ≠ 0 →
      (timer_init 2 (fun _ => Timespec.zero)).current s = 0) ∧
    (timer_init 2 (fun _ => Timespec.zero)).names 0 = "CLCK" ∧
    (∀ s, s < NUM_TIMERS → s ≠ 0 →
      (timer_init 2 (fun _ => Timespec.zero)).names s = toString s)) :=
  ⟨by decide, timer_init_calibrates 2 (fun _ => Timespec.zero) (by decide)⟩

/-! ### C2 -/

/-- C2: for every valid slot, `timer_get_total` returns 0 when the
recorded count is 0, and otherwise the sum over all recorded sample
indices of `end - begin`, each timestamp converted to seconds as
`seconds_component + nanoseconds_component / 1000000000`. -/
theorem timer_get_total_spec (s : TimerState) (tidx : ℕ) (h : tidx < NUM_TIMERS) :
    (s.current tidx = 0 → timer_get_total s tidx = 0) ∧
    timer_get_total s tidx =
      ∑ k ∈ Finset.range (s.current tidx),
        ((((s.ends tidx k).tv_sec : ℚ) + ((s.ends tidx k).tv_nsec : ℚ) / 1000000000) -
          (((s.begins tidx k).tv_sec : ℚ) + ((s.begins tidx k).tv_nsec : ℚ) / 1000000000)) := by
  constructor
  · intro h0
    rw [timer_get_total, h0]
    rfl
  · rw [timer_get_total_eq_sum]
    rfl

/-- Witness for C2 on `demoState` at slot 1 (one recorded sample). -/
theorem timer_get_total_spec_witness :
    (demoState.current 1 = 0 → timer_get_total demoState 1 = 0) ∧
    timer_get_total demoState 1 =
      ∑ k ∈ Finset.range (demoState.current 1),
        ((((demoState.ends 1 k).tv_sec : ℚ) +
            ((demoState.ends 1 k).tv_nsec : ℚ) / 1000000000) -
          (((demoState.begins 1 k).tv_sec : ℚ) +
            ((demoState.begins 1 k).tv_nsec : ℚ) / 1000000000)) :=
  timer_get_total_spec demoState 1 (by decide)

/-! ### C3 -/

/-- C3: for every valid slot with a positive recorded count,
`timer_get_avg` equals `timer_get_total` divided by the recorded count
(equivalently, it multiplies back to the total). -/
theorem timer_get_avg_spec (s : TimerState) (tidx : ℕ) (h1 : tidx < NUM_TIMERS)
    (h2 : 0 < s.current tidx) :
    timer_get_avg s tidx = timer_get_total s tidx / (s.current tidx : ℚ) ∧
    timer_get_avg s tidx * (s.current tidx : ℚ) = timer_get_total s tidx := by
  refine ⟨rfl, ?_⟩
  have hne : (s.current tidx : ℚ) ≠ 0 :=
    Nat.cast_ne_zero.mpr (Nat.pos_iff_ne_zero.mp h2)
  rw [timer_get_avg, div_mul_cancel₀ _ hne]

/-- Witness for C3 on `demoState` at slot 1. -/
theorem timer_get_avg_spec_witness :
    timer_get_avg demoState 1 = timer_get_total demoState 1 / (demoState.current 1 : ℚ) ∧
    timer_get_avg demoState 1 * (demoState.current 1 : ℚ) = timer_get_total demoState 1 :=
  timer_get_avg_spec demoState 1 (by decide) (by decide)

/-! ### C6 -/

/-- C6: for every valid slot with a positive recorded count, the
minimum duration is at most the average, which is at most the maximum
duration. -/
theorem timer_min_le_avg_le_max (s : TimerState) (tidx : ℕ) (h1 : tidx < NUM_TIMERS)
    (h2 : 0 < s.current tidx) :
    timer_get_min s tidx ≤ timer_get_avg s tidx ∧
    timer_get_avg s tidx ≤ timer_get_max s tidx := by
  have hn : (0 : ℚ) < (s.current tidx : ℚ) := by exact_mod_cast h2
  have hmin : ∀ k ∈ Finset.range (s.current tidx),
      timer_get_min s tidx ≤ sampleDuration s tidx k := by
    intro k hk
    exact foldl_min_le_of_mem (sampleDuration s tidx) _ _ k
      (List.mem_range.mpr (Finset.mem_range.mp hk))
  have hmax : ∀ k ∈ Finset.range (s.current tidx),
      sampleDuration s tidx k ≤ timer_get_max s tidx := by
    intro k hk
    exact le_foldl_max_of_mem (sampleDuration s tidx) _ _ k
      (List.mem_range.mpr (Finset.mem_range.mp hk))
  constructor
  · rw [timer_get_avg, le_div_iff hn, timer_get_total_eq_sum]
    calc timer_get_min s tidx * (s.current tidx : ℚ)
        = ∑ _k ∈ Finset.range (s.current tidx), timer_get_min s tidx := by
          rw [Finset.sum_const, Finset.card_range, nsmul_eq_mul, mul_comm]
      _ ≤ ∑ k ∈ Finset.range (s.current tidx), sampleDuration s tidx k :=
          Finset.sum_le_sum hmin
  · rw [timer_get_avg, div_le_iff hn, timer_get_total_eq_sum]
    calc ∑ k ∈ Finset.range (s.current tidx), sampleDuration s tidx k
        ≤ ∑ _k ∈ Finset.range (s.current tidx), timer_get_max s tidx :=
          Finset.sum_le_sum hmax
      _ = timer_get_max s tidx * (s.current tidx : ℚ) := by
          rw [Finset.sum_const, Finset.card_range, nsmul_eq_mul, mul_comm]

/-- Witness for C6 on `demoState` at slot 1. -/
theorem timer_min_le_avg_le_max_witness :
    timer_get_min demoState 1 ≤ timer_get_avg demoState 1 ∧
    timer_get_avg demoState 1 ≤ timer_get_max demoState 1 :=
  timer_min_le_avg_le_max demoState 1 (by decide) (by decide)

/-! ### C7 -/

/-- C7: `timer_set_name` stores the label, truncated to the maximum
name length (15 characters plus the terminating NUL in the 16-byte
buffer), as the name of the next unused slot index, increments the
allocation cursor, and returns that index; since `timer_init` consumes
index 0 for `"CLCK"`, the first call after init returns 1. -/
theorem timer_set_name_spec (label : String) (s : TimerState) (c : ℕ)
    (clock : ℕ → Timespec) :
    (timer_set_name label s).2 = s.name_cur ∧
    (timer_set_name label s).1.name_cur = s.name_cur + 1 ∧
    (timer_set_name label s).1.names s.name_cur = truncateName label (MAX_NAME_SIZE - 1) ∧
    (∀ i, i ≠ s.name_cur → (timer_set_name label s).1.names i = s.names i) ∧
    (timer_set_name label (timer_init c clock)).2 = 1 := by
  refine ⟨rfl, rfl, ?_, ?_, ?_⟩
  · show (if s.name_cur = s.name_cur then _ else _) = _
    rw [if_pos rfl]
  · intro i hi
    show (if i = s.name_cur then _ else _) = _
    rw [if_neg hi]
  · show (timer_init c clock).name_cur = 1
    exact (foldl_calibration_preserved 0 clock (List.range c)
      (timer_set_name "CLCK" (initLoopState c)).1).1.2

/-! ### C9 -/

/-- C9: below capacity, `timer_begin` writes only the slot's begin cell
at the current index and changes nothing else; `timer_end` writes only
the slot's end cell at the current index and increments only that
slot's count, changing nothing else. -/
theorem timer_begin_end_frame (st : TimerState) (tidx : ℕ) (t u : Timespec)
    (h1 : tidx < NUM_TIMERS) (h2 : st.current tidx < st.capacity) :
    (timer_begin tidx t st).1.begins tidx (st.current tidx) = t ∧
    (∀ i k, ¬(i = tidx ∧ k = st.current tidx) →
      (timer_begin tidx t st).1.begins i k = st.begins i k) ∧
    (timer_begin tidx t st).1.ends = st.ends ∧
    (timer_begin tidx t st).1.current = st.current ∧
    (timer_begin tidx t st).1.names = st.names ∧
    (timer_end tidx u st).1.ends tidx (st.current tidx) = u ∧
    (∀ i k, ¬(i = tidx ∧ k = st.current tidx) →
      (timer_end tidx u st).1.ends i k = st.ends i k) ∧
    (timer_end tidx u st).1.current tidx = st.current tidx + 1 ∧
    (∀ i, i ≠ tidx → (timer_end tidx u st).1.current i = st.current i) ∧
    (timer_end tidx u st).1.begins = st.begins ∧
    (timer_end tidx u st).1.names = st.names := by
  refine ⟨?_, ?_, rfl, rfl, rfl, ?_, ?_, ?_, ?_, rfl, rfl⟩
  · show (if tidx = tidx ∧ st.current tidx = st.current tidx then _ else _) = _
    rw [if_pos ⟨rfl, rfl⟩]
  · intro i k hik
    show (if i = tidx ∧ k = st.current tidx then _ else _) = _
    rw [if_neg hik]
  · show (if tidx = tidx ∧ st.current tidx = st.current tidx then _ else _) = _
    rw [if_pos ⟨rfl, rfl⟩]
  · intro i k hik
    show (if i = tidx ∧ k = st.current tidx then _ else _) = _
    rw [if_neg hik]
  · show (if tidx = tidx then _ else _) = _
    rw [if_pos rfl]
  · intro i hi
    show (if i = tidx then _ else _) = _
    rw [if_neg hi]

/-- Witness for C9 on `demoState` at slot 2 (count 0, capacity 2). -/
theorem timer_begin_end_frame_witness :
    (timer_begin 2 ⟨1, 2⟩ demoState).1.begins 2 (demoState.current 2) = ⟨1, 2⟩ ∧
    (∀ i k, ¬(i = 2 ∧ k = demoState.current 2) →
      (timer_begin 2 ⟨1, 2⟩ demoState).1.begins i k = demoState.begins i k) ∧
    (timer_begin 2 ⟨1, 2⟩ demoState).1.ends = demoState.ends ∧
    (timer_begin 2 ⟨1, 2⟩ demoState).1.current = demoState.current ∧
    (timer_begin 2 ⟨1, 2⟩ demoState).1.names = demoState.names ∧
    (timer_end 2 ⟨3, 4⟩ demoState).1.ends 2 (demoState.current 2) = ⟨3, 4⟩ ∧
    (∀ i k, ¬(i = 2 ∧ k = demoState.current 2) →
      (timer_end 2 ⟨3, 4⟩ demoState).1.ends i k = demoState.ends i k) ∧
    (timer_end 2 ⟨3, 4⟩ demoState).1.current 2 = demoState.current 2 + 1 ∧
    (∀ i, i ≠ 2 → (timer_end 2 ⟨3, 4⟩ demoState).1.current i = demoState.current i) ∧
    (timer_end 2 ⟨3, 4⟩ demoState).1.begins = demoState.begins ∧
    (timer_end 2 ⟨3, 4⟩ demoState).1.names = demoState.names :=
  timer_begin_end_frame demoState 2 ⟨1, 2⟩ ⟨3, 4⟩ (by decide) (by decide)

/-! ### Helper lemmas for empty-slot statistics -/

lemma timer_init_other_slot_zero (c : ℕ) (clock : ℕ → Timespec) (s : ℕ) (hs0 : s ≠ 0) :
    (timer_init c clock).current s = 0 ∧
    ∀ k, sampleDuration (timer_init c clock) s k = 0 := by
  constructor
  · rw [show (timer_init c clock).current s =
        ((List.range c).foldl (calibrationStep 0 clock)
          (timer_set_name "CLCK" (initLoopState c)).1).current s from rfl,
      foldl_calibration_current, if_neg hs0]
    rfl
  · intro k
    have hb := foldl_calibration_other_slots 0 clock (List.range c)
      (timer_set_name "CLCK" (initLoopState c)).1 s k hs0
    have hb1 : (timer_init c clock).begins s k = Timespec.zero := hb.1
    have hb2 : (timer_init c clock).ends s k = Timespec.zero := hb.2
    rw [sampleDuration, hb1, hb2, sub_self]

lemma timer_get_min_of_zero (st : TimerState) (tidx : ℕ) (h : st.current tidx = 0) :
    timer_get_min st tidx = sampleDuration st tidx 0 := by
  rw [timer_get_min, h]
  rfl

lemma timer_get_max_of_zero (st : TimerState) (tidx : ℕ) (h : st.current tidx = 0) :
    timer_get_max st tidx = sampleDuration st tidx 0 := by
  rw [timer_get_max, h]
  rfl

/-! ### C10 -/

/-- C10: on a slot with recorded count 0, `timer_get_min` and
`timer_get_max` both return the duration formed from the never-recorded
sample pair at index 0; on a slot other than 0 right after `timer_init`
(whose storage `calloc` zeroed), that value is 0. -/
theorem timer_min_max_empty_slot (st : TimerState) (tidx c : ℕ) (clock : ℕ → Timespec)
    (s : ℕ) (h : st.current tidx = 0) (hs : s < NUM_TIMERS) (hs0 : s ≠ 0) :
    timer_get_min st tidx = sampleDuration st tidx 0 ∧
    timer_get_max st tidx = sampleDuration st tidx 0 ∧
    timer_get_min (timer_init c clock) s = 0 ∧
    timer_get_max (timer_init c clock) s = 0 := by
  obtain ⟨hcur, hz⟩ := timer_init_other_slot_zero c clock s hs0
  refine ⟨timer_get_min_of_zero st tidx h, timer_get_max_of_zero st tidx h, ?_, ?_⟩
  · rw [timer_get_min_of_zero _ _ hcur]
    exact hz 0
  · rw [timer_get_max_of_zero _ _ hcur]
    exact hz 0

/-- Witness for C10 on `demoState` at slot 2 and on `timer_init 1` at
slot 3. -/
theorem timer_min_max_empty_slot_witness :
    timer_get_min demoState 2 = sampleDuration demoState 2 0 ∧
    timer_get_max demoState 2 = sampleDuration demoState 2 0 ∧
    timer_get_min (timer_init 1 (fun _ => Timespec.zero)) 3 = 0 ∧
    timer_get_max (timer_init 1 (fun _ => Timespec.zero)) 3 = 0 :=
  timer_min_max_empty_slot demoState 2 1 (fun _ => Timespec.zero) 3
    (by decide) (by decide) (by decide)

/-! ### C4: behavior at the claimed BufferFull input -/

/-- C4 (code behavior at the failing input): after `timer_init 3`,
slot 0's recorded count equals the capacity 3, yet `timer_begin` still
returns 0 (success) and writes the begin cell at index 3 — one past the
allocated region — and `timer_end` still returns 0 and pushes the count
to 4, exceeding the capacity. No `BufferFull` error exists in the
source. -/
theorem timer_begin_end_overflow :
    (timer_init 3 (fun _ => Timespec.zero)).current 0 =
      (timer_init 3 (fun _ => Timespec.zero)).capacity ∧
    (timer_begin 0 ⟨7, 0⟩ (timer_init 3 (fun _ => Timespec.zero))).2 = 0 ∧
    (timer_begin 0 ⟨7, 0⟩ (timer_init 3 (fun _ => Timespec.zero))).1.begins 0 3 = ⟨7, 0⟩ ∧
    (timer_end 0 ⟨9, 0⟩ (timer_init 3 (fun _ => Timespec.zero))).2 = 0 ∧
    (timer_end 0 ⟨9, 0⟩ (timer_init 3 (fun _ => Timespec.zero))).1.current 0 = 4 := by
  decide

/-! ### C5: behavior of the getters on an empty slot -/

/-- C5 (code behavior at the failing input): after `timer_init 1`,
slot 1 has recorded count 0, yet the getters return plain numeric
values (0 for total, and the zero-initialized index-0 duration 0 for
min and max) — the C API returns `double` and has no error channel at
all. (`timer_get_avg` divides the total by the zero count, producing
NaN in C; exact rational arithmetic cannot represent that.) -/
theorem timer_getters_empty_slot_numeric :
    (timer_init 1 (fun _ => Timespec.zero)).current 1 = 0 ∧
    timer_get_total (timer_init 1 (fun _ => Timespec.zero)) 1 = 0 ∧
    timer_get_min (timer_init 1 (fun _ => Timespec.zero)) 1 = 0 ∧
    timer_get_max (timer_init 1 (fun _ => Timespec.zero)) 1 = 0 := by
  obtain ⟨hcur, hz⟩ := timer_init_other_slot_zero 1 (fun _ => Timespec.zero) 1 (by decide)
  refine ⟨hcur, ?_, ?_, ?_⟩
  · rw [timer_get_total, hcur]
    rfl
  · rw [timer_get_min_of_zero _ _ hcur]
    exact hz 0
  · rw [timer_get_max_of_zero _ _ hcur]
    exact hz 0

/-! ### C8: behavior when all slot indices are assigned -/

/-- C8 (code behavior at the failing input): with the allocation cursor
at `NUM_TIMERS` (all six fixed indices assigned), `timer_set_name`
still returns index 6 — outside the six-entry name array — increments
the cursor to 7, and stores the label at index 6. No `SlotExhausted`
error exists in the source. -/
theorem timer_set_name_no_exhaustion_check :
    exhaustedState.name_cur = NUM_TIMERS ∧
    (timer_set_name "XTRA" exhaustedState).2 = NUM_TIMERS ∧
    (timer_set_name "XTRA" exhaustedState).1.name_cur = NUM_TIMERS + 1 ∧
    (timer_set_name "XTRA" exhaustedState).1.names NUM_TIMERS = "XTRA" := by
  decide
